import Mathlib

/-!
Verification of the core data operations of the browser-resident programme
management system (`script.js`): the participant / budget-item / expense
repositories, id generation, validated mutation operations, derived
statistics, CSV field serialization and theme persistence.

JavaScript numbers are modelled by `JsNum`: a rational together with the
non-finite values `Infinity`, `-Infinity` and `NaN` (negative zero is not
distinguished; none of the verified operations can observe it).  Where
binary64 rounding can change a result it is modelled explicitly: `fl64`
rounds a rational to the nearest 53-bit significand value (ties to even)
and is applied to each arithmetic step of the success-rate computation.
`fl64` keeps an unbounded exponent, so it agrees with binary64 on the
whole normal range; the subnormal and overflow thresholds are out of
reach for every value these computations can produce from
JavaScript-representable collections.  The amounts appearing in the other
claims are values on which the source's arithmetic is exact in binary64.
-/

/-- JavaScript number: finite rational, `Infinity`, `-Infinity` or `NaN`. -/
inductive JsNum where
  | num : ℚ → JsNum
  | inf : JsNum
  | negInf : JsNum
  | nan : JsNum
deriving DecidableEq

/-- JavaScript `+` on numbers. -/
def jsAdd : JsNum → JsNum → JsNum
  | .nan, _ => .nan
  | _, .nan => .nan
  | .inf, .negInf => .nan
  | .negInf, .inf => .nan
  | .inf, _ => .inf
  | _, .inf => .inf
  | .negInf, _ => .negInf
  | _, .negInf => .negInf
  | .num a, .num b => .num (a + b)

/-- JavaScript unary minus on numbers. -/
def jsNeg : JsNum → JsNum
  | .num a => .num (-a)
  | .inf => .negInf
  | .negInf => .inf
  | .nan => .nan

/-- JavaScript `-` on numbers. -/
def jsSub (a b : JsNum) : JsNum := jsAdd a (jsNeg b)

/-- JavaScript `*` on numbers. -/
def jsMul : JsNum → JsNum → JsNum
  | .nan, _ => .nan
  | _, .nan => .nan
  | .num a, .num b => .num (a * b)
  | .inf, .inf => .inf
  | .inf, .negInf => .negInf
  | .negInf, .inf => .negInf
  | .negInf, .negInf => .inf
  | .inf, .num b => if 0 < b then .inf else if b < 0 then .negInf else .nan
  | .num a, .inf => if 0 < a then .inf else if a < 0 then .negInf else .nan
  | .negInf, .num b => if 0 < b then .negInf else if b < 0 then .inf else .nan
  | .num a, .negInf => if 0 < a then .negInf else if a < 0 then .inf else .nan

/-- JavaScript `/` on numbers; a positive finite number divided by zero is
`Infinity`, zero by zero is `NaN`. -/
def jsDiv : JsNum → JsNum → JsNum
  | .nan, _ => .nan
  | _, .nan => .nan
  | .num a, .num b =>
      if b = 0 then (if 0 < a then .inf else if a < 0 then .negInf else .nan)
      else .num (a / b)
  | .inf, .num b => if b < 0 then .negInf else .inf
  | .negInf, .num b => if b < 0 then .inf else .negInf
  | .num _, .inf => .num 0
  | .num _, .negInf => .num 0
  | .inf, .inf => .nan
  | .inf, .negInf => .nan
  | .negInf, .inf => .nan
  | .negInf, .negInf => .nan

/-- `Math.round` on a finite value: round half towards positive infinity. -/
def jsRoundQ (q : ℚ) : ℤ := ⌊q + 1 / 2⌋

/-- JavaScript `Math.round`; `Math.round` of `Infinity`, `-Infinity`, `NaN`
is the argument itself. -/
def jsRound : JsNum → JsNum
  | .num q => .num ((jsRoundQ q : ℤ) : ℚ)
  | .inf => .inf
  | .negInf => .negInf
  | .nan => .nan

/-- JavaScript number-to-string conversion as used after `Math.round`:
integers print in decimal, the non-finite values print as `Infinity`,
`-Infinity`, `NaN`.  (Non-integral rationals are approximated by their
fraction representation; every use in the embedded code is post-rounding,
hence integral or non-finite.) -/
def jsNumToString : JsNum → String
  | .nan => "NaN"
  | .inf => "Infinity"
  | .negInf => "-Infinity"
  | .num q => if q.den = 1 then toString q.num else toString q.num ++ "/" ++ toString q.den

/-- JavaScript `x || ''` on a string (the empty string is falsy). -/
def jsOrEmpty (s : String) : String := if s = "" then "" else s

/-- Digits-to-value accumulator used by the numeric parsers. -/
def digitsToNat (ds : List Char) : ℕ :=
  ds.foldl (fun n c => 10 * n + (c.toNat - 48)) 0

/-- JavaScript `parseInt` with the default radix on decimal input:
leading whitespace skipped, optional sign, longest leading digit run;
`NaN` (here `none`) when no digit is found.  (The hexadecimal `0x` form is
not modelled; the embedded code only ever parses id suffixes.) -/
def parseIntJS (s : String) : Option ℤ :=
  let cs := s.toList.dropWhile Char.isWhitespace
  let sgn : ℤ := match cs with
    | '-' :: _ => -1
    | _ => 1
  let rest := match cs with
    | '-' :: r => r
    | '+' :: r => r
    | r => r
  let ds := rest.takeWhile Char.isDigit
  if ds = [] then none else some (sgn * (digitsToNat ds : ℤ))

/-- JavaScript `parseFloat`: leading whitespace skipped, optional sign,
then either the literal `Infinity` or an integer part, optional fraction
and optional exponent; `NaN` when neither an integer nor a fraction digit
is found. -/
def parseFloatJS (s : String) : JsNum :=
  let cs := s.toList.dropWhile Char.isWhitespace
  let sgn : ℚ := match cs with
    | '-' :: _ => -1
    | _ => 1
  let rest := match cs with
    | '-' :: r => r
    | '+' :: r => r
    | r => r
  if "Infinity".toList.isPrefixOf rest then
    (if sgn = 1 then .inf else .negInf)
  else
    let intDs := rest.takeWhile Char.isDigit
    let rest2 := rest.drop intDs.length
    let fracDs := match rest2 with
      | '.' :: r => r.takeWhile Char.isDigit
      | _ => []
    let rest3 := match rest2 with
      | '.' :: r => r.drop fracDs.length
      | _ => rest2
    if intDs = [] ∧ fracDs = [] then .nan
    else
      let base : ℚ := (digitsToNat intDs : ℚ) + (digitsToNat fracDs : ℚ) / (10 : ℚ) ^ fracDs.length
      let expo : ℤ := match rest3 with
        | 'e' :: r => expPart r
        | 'E' :: r => expPart r
        | _ => 0
      .num (sgn * base * (10 : ℚ) ^ expo)
where
  /-- Exponent part of `parseFloat`: sign and digits; an unparsable
  exponent is ignored (contributes 0), as in JavaScript. -/
  expPart (r : List Char) : ℤ :=
    let esgn : ℤ := match r with
      | '-' :: _ => -1
      | _ => 1
    let r2 := match r with
      | '-' :: t => t
      | '+' :: t => t
      | t => t
    let eds := r2.takeWhile Char.isDigit
    if eds = [] then 0 else esgn * (digitsToNat eds : ℤ)

/-- `String.prototype.replace` with a plain-string pattern: replaces the
first occurrence of `pat` (here always by the empty string). -/
def replaceFirst (pat : List Char) : List Char → List Char
  | [] => []
  | c :: cs =>
      if pat.isPrefixOf (c :: cs) then (c :: cs).drop pat.length
      else c :: replaceFirst pat cs

/-- `String.prototype.padStart(3, '0')`. -/
def padStart3 (s : String) : String :=
  if s.length ≥ 3 then s
  else String.mk (List.replicate (3 - s.length) '0') ++ s

/-! ## Data model (section 3 of the source: entity records) -/

/-- A participant record as built by `addParticipant`. -/
structure Participant where
  id : String
  name : String
  email : String
  phone : String
  programme : String
  startDate : String
  progress : ℕ
  status : String
  notes : String
  attendance : ℕ
  revenue : ℚ
  jobs : ℕ
  createdAt : String
deriving DecidableEq

/-- A budget item record as built by `addBudgetItem`; `amount` is the raw
`parseFloat` result, hence a `JsNum` (it can be `NaN`). -/
structure BudgetItem where
  category : String
  amount : JsNum
  priority : String
  description : String
  dateAdded : String
  createdAt : String
deriving DecidableEq

/-- An expense record as built by `addExpense`. -/
structure Expense where
  id : String
  category : String
  amount : JsNum
  date : String
  description : String
  createdAt : String
deriving DecidableEq

/-- The persisted settings record. -/
structure Settings where
  theme : String
deriving DecidableEq

/-- The in-memory cache `systemData` mirroring the persisted store. -/
structure SystemData where
  participants : List Participant
  budgetItems : List BudgetItem
  expenses : List Expense
  settings : Settings
deriving DecidableEq

/-- The persisted key-value store: the four fixed slots written by
`storage.set`.  Writes are modelled as always succeeding. -/
structure Store where
  participants : List Participant
  budgetItems : List BudgetItem
  expenses : List Expense
  settings : Settings
deriving DecidableEq

/-! ## Validation and id generation -/

/-- A character admissible in each part of the email pattern
`[^\s@]+@[^\s@]+\.[^\s@]+`: neither whitespace nor `@`. -/
def emailChar (c : Char) : Bool := ¬ c.isWhitespace ∧ c ≠ '@'

/-- `isValidEmail` from the source: the anchored test
`/^[^\s@]+@[^\s@]+\.[^\s@]+$/.test(email)`.  The string must be
`local@domain` with exactly one `@`, a nonempty whitespace-free local
part, and a domain containing a `.` with nonempty whitespace-free text on
both sides (equivalently: an internal dot). -/
def isValidEmail (s : String) : Bool :=
  match s.toList.splitOn '@' with
  | [a, b] =>
      a ≠ [] ∧ a.all emailChar ∧ b.all emailChar ∧
      ((b.drop 1).dropLast.contains '.')
  | _ => false

/-- One step of the `forEach` loop in `generateParticipantId` /
`generateExpenseId`: `parseInt(id.replace(tag, ''))`, then
`if (idNum > maxId) maxId = idNum` — a `NaN` comparison is false, so an
unparsable suffix leaves the accumulator unchanged. -/
def idFoldStep (tag : List Char) (m : ℤ) (id : String) : ℤ :=
  match parseIntJS (String.mk (replaceFirst tag id.toList)) with
  | some n => if n > m then n else m
  | none => m

/-- `generateParticipantId` from the source: scan the participants,
take the maximal numeric suffix (starting from 0), and return
`'P' + String(maxId + 1).padStart(3, '0')`. -/
def generateParticipantId (ps : List Participant) : String :=
  let maxId : ℤ := ps.foldl (fun m p => idFoldStep ['P'] m p.id) 0
  "P" ++ padStart3 (toString (maxId + 1))

/-- `generateExpenseId` from the source: same scan with the `EXP` tag. -/
def generateExpenseId (es : List Expense) : String :=
  let maxId : ℤ := es.foldl (fun m e => idFoldStep ['E', 'X', 'P'] m e.id) 0
  "EXP" ++ padStart3 (toString (maxId + 1))

/-- Numeric suffix of an id, as the spec describes it: the integer parse
of the id with its entity tag removed, a parsing failure counting as
suffix 0. -/
def numericSuffix (tag : List Char) (id : String) : ℤ :=
  (parseIntJS (String.mk (replaceFirst tag id.toList))).getD 0

/-- Maximum numeric suffix over a collection of ids, as the spec
describes it; the empty collection yields 0. -/
def specMaxSuffix (tag : List Char) (ids : List String) : ℤ :=
  ids.foldr (fun id m => max (numericSuffix tag id) m) 0

/-! ## Mutation operations -/

/-- The form fields read by `addParticipant` (`FormData.get`; a missing or
empty field is the empty string, which is falsy in every test the source
performs). -/
structure ParticipantForm where
  name : String
  email : String
  phone : String
  programme : String
  customProgramme : String
  startDate : String
  notes : String
deriving DecidableEq

/-- Outcome of `addParticipant`: the persisted participant collection
after the call, the created record when successful, and the error
notification message on a validation failure. -/
structure AddParticipantResult where
  participants : List Participant
  created : Option Participant
  error : Option String
deriving DecidableEq

/-- The part of `addParticipant` after the custom-programme resolution,
with `programme` the resolved programme name: required-field check,
email format check, email uniqueness check, then append and persist of
the new record (status `Active`, progress 0, zero counters). -/
def addParticipantResolved (f : ParticipantForm) (programme : String)
    (ps : List Participant) (now : String) : AddParticipantResult :=
  if f.name = "" ∨ f.email = "" ∨ programme = "" ∨ f.startDate = "" then
    ⟨ps, none, some "Please fill all required fields"⟩
  else if ¬ isValidEmail f.email then
    ⟨ps, none, some "Please enter a valid email address"⟩
  else if ps.any (fun p => p.email = f.email) then
    ⟨ps, none, some "A participant with this email already exists"⟩
  else
    let newParticipant : Participant :=
      { id := generateParticipantId ps
        name := f.name
        email := f.email
        phone := jsOrEmpty f.phone
        programme := programme
        startDate := f.startDate
        progress := 0
        status := "Active"
        notes := jsOrEmpty f.notes
        attendance := 0
        revenue := 0
        jobs := 0
        createdAt := now }
    ⟨ps ++ [newParticipant], some newParticipant, none⟩

/-- `addParticipant` from the source, with the current persisted
collection and the clock reading passed explicitly.  The validation
cascade in source order: custom-programme resolution first (a blank
custom name is rejected, otherwise the trimmed custom name replaces the
`programme` variable), then the checks of `addParticipantResolved`. -/
def addParticipant (f : ParticipantForm) (ps : List Participant) (now : String) :
    AddParticipantResult :=
  if f.programme = "custom" then
    if f.customProgramme.trim = "" then
      ⟨ps, none, some "Please enter a custom programme name"⟩
    else addParticipantResolved f (f.customProgramme.trim) ps now
  else addParticipantResolved f f.programme ps now

/-- The form fields read by `addBudgetItem`. -/
structure BudgetForm where
  category : String
  amount : String
  priority : String
  description : String
deriving DecidableEq

/-- Outcome of `addBudgetItem`: persisted collection after the call and
the error notification message, if any. -/
structure AddBudgetResult where
  budgetItems : List BudgetItem
  error : Option String
deriving DecidableEq

/-- `addBudgetItem` from the source: required-field check (falsy test on
the raw strings), case-insensitive category uniqueness, then append with
`amount: parseFloat(amount)` — the source performs no numeric validation
of the parse result. -/
def addBudgetItem (f : BudgetForm) (items : List BudgetItem) (today now : String) :
    AddBudgetResult :=
  if f.category = "" ∨ f.amount = "" ∨ f.priority = "" then
    ⟨items, some "Please fill all required fields"⟩
  else if items.any (fun item => item.category.toLower = f.category.toLower) then
    ⟨items, some "A budget item with this category already exists"⟩
  else
    let newBudgetItem : BudgetItem :=
      { category := f.category
        amount := parseFloatJS f.amount
        priority := f.priority
        description := jsOrEmpty f.description
        dateAdded := today
        createdAt := now }
    ⟨items ++ [newBudgetItem], none⟩

/-- Outcome of `removeBudgetItem`. -/
structure RemoveBudgetResult where
  budgetItems : List BudgetItem
  error : Option String
deriving DecidableEq

/-- `removeBudgetItem(index)` from the source (the user's confirmation
dialog is taken as granted): indices outside `[0, length)` produce the
not-found notification and no write; otherwise `splice(index, 1)` removes
the element at that position and the rest is persisted. -/
def removeBudgetItem (index : ℤ) (items : List BudgetItem) : RemoveBudgetResult :=
  if index < 0 ∨ index ≥ (items.length : ℤ) then
    ⟨items, some "Budget item not found"⟩
  else
    ⟨items.take index.toNat ++ items.drop (index.toNat + 1), none⟩

/-- `saveData` from the source: writes all four cached collections of
`systemData` to their storage keys, overwriting whatever was persisted. -/
def saveData (sd : SystemData) (_st : Store) : Store :=
  { participants := sd.participants
    budgetItems := sd.budgetItems
    expenses := sd.expenses
    settings := sd.settings }

/-- `toggleTheme` from the source: flips the body's dark-mode class,
derives the theme from the flipped state, stores it in the cached
settings and calls `saveData`.  Returns the new dark-mode flag, the new
cache and the new store. -/
def toggleTheme (domDark : Bool) (sd : SystemData) (st : Store) :
    Bool × SystemData × Store :=
  let isDark := ! domDark
  let sd2 : SystemData := { sd with settings := { theme := if isDark then "dark" else "light" } }
  (isDark, sd2, saveData sd2 st)

/-! ## Binary64 rounding

The success-rate computation divides two integer counts and scales by
100; in JavaScript both operations round to binary64, and the final
`Math.round` acts on the rounded double, so the result can differ from
the exact formula.  `fl64` models that rounding: nearest value with a
53-bit significand, ties to even, exponent unbounded (exact for the
whole binary64 normal range; the pipeline's values stay far inside it
for every JavaScript-representable collection, whose length is below
`2^32`, so the integer counts themselves cast exactly). -/

/-- Number of binary digits of `n` (0 for 0), with explicit fuel so that
the kernel can evaluate it; `bitLen` supplies fuel `n`, which always
suffices. -/
def bitLenAux : ℕ → ℕ → ℕ
  | 0, _ => 0
  | fuel + 1, n => if n = 0 then 0 else bitLenAux fuel (n / 2) + 1

/-- Number of binary digits of `n`: for `n ≠ 0` the unique `L ≥ 1` with
`2 ^ (L - 1) ≤ n < 2 ^ L`. -/
def bitLen (n : ℕ) : ℕ := bitLenAux n n

/-- First exponent guess for a positive rational: digit length of the
numerator minus digit length of the denominator. -/
def ratExpBase (q : ℚ) : ℤ := (bitLen q.num.natAbs : ℤ) - (bitLen q.den : ℤ)

/-- Binade exponent of a positive rational: the unique `e` with
`2 ^ e ≤ q < 2 ^ (e + 1)`. -/
def ratExp (q : ℚ) : ℤ :=
  if (2 : ℚ) ^ ratExpBase q ≤ q then ratExpBase q else ratExpBase q - 1

/-- Round to the nearest integer, ties to even — the IEEE 754 default
rounding used by JavaScript arithmetic. -/
def roundHalfEven (y : ℚ) : ℤ :=
  if Int.fract y < 1 / 2 then ⌊y⌋
  else if 1 / 2 < Int.fract y then ⌊y⌋ + 1
  else if ⌊y⌋ % 2 = 0 then ⌊y⌋ else ⌊y⌋ + 1

/-- Binary64 rounding of a rational: round the significand scaled into
`[2^52, 2^53)` half-to-even and rescale.  Exponent unbounded: equal to
IEEE binary64 on the normal range, no subnormal loss or overflow. -/
def fl64 (q : ℚ) : ℚ :=
  if q = 0 then 0
  else
    (if q < 0 then -1 else 1) *
      (roundHalfEven (|q| * 2 ^ ((52 : ℤ) - ratExp |q|)) : ℚ) * 2 ^ (ratExp |q| - (52 : ℤ))

/-! ## Derived statistics and reports -/

/-- `calculateSuccessRate` from the source: 0 for an empty collection,
otherwise `Math.round((completed / total) * 100)` — the division and the
multiplication each round to binary64 as JavaScript evaluates them,
modelled by `fl64`; `Math.round` itself is exact on the resulting double
(`jsRoundQ` on its rational value). -/
def calculateSuccessRate (ps : List Participant) : ℤ :=
  if ps.length = 0 then 0
  else jsRoundQ (fl64 (fl64
    (((ps.filter (fun p => p.status = "Completed")).length : ℚ) / (ps.length : ℚ)) * 100))

/-- Success rate as the spec words it: `round(100 * count(Completed) / total)`,
0 for the empty collection. -/
def successRateSpec (ps : List Participant) : ℤ :=
  if ps.length = 0 then 0
  else jsRoundQ (100 * ((ps.filter (fun p => p.status = "Completed")).length : ℚ) / (ps.length : ℚ))

/-- One row of the monthly budget report built by `generateMonthlyReport`. -/
structure ReportRow where
  Category : String
  Budget : JsNum
  Spent : JsNum
  Remaining : JsNum
  Utilization : String
deriving DecidableEq

/-- The per-category table of `generateMonthlyReport`: for each budget
item, `spent` sums the matching expenses, and
`Utilization = Math.round((spent / item.amount) * 100) + '%'` — the
division is not guarded against a zero amount. -/
def generateMonthlyReport (budgetItems : List BudgetItem) (expenses : List Expense) :
    List ReportRow :=
  budgetItems.map fun item =>
    let spent :=
      ((expenses.filter (fun e => e.category = item.category)).map Expense.amount).foldl
        jsAdd (JsNum.num 0)
    { Category := item.category
      Budget := item.amount
      Spent := spent
      Remaining := jsSub item.amount spent
      Utilization := jsNumToString (jsRound (jsMul (jsDiv spent item.amount) (JsNum.num 100))) ++ "%" }

/-! ## CSV export -/

/-- A JavaScript value as it can occur in an exported record field. -/
inductive JsVal where
  | str : String → JsVal
  | numv : JsNum → JsVal
  | boolv : Bool → JsVal
  | nullv : JsVal
  | undefinedV : JsVal
deriving DecidableEq

/-- JavaScript falsiness of a record field value: `''`, `0`, `NaN`,
`false`, `null` and `undefined` are falsy. -/
def jsFalsy : JsVal → Bool
  | .str s => s = ""
  | .numv (.num q) => q = 0
  | .numv .nan => true
  | .numv _ => false
  | .boolv b => ! b
  | .nullv => true
  | .undefinedV => true

/-- Property lookup `row[header]` on a record modelled as an association
list; a missing property is `undefined`. -/
def jsGet (row : List (String × JsVal)) (header : String) : JsVal :=
  match row.find? (fun kv => kv.1 = header) with
  | some kv => kv.2
  | none => .undefinedV

/-- Stringification a value undergoes inside `Array.prototype.join`. -/
def jsValToString : JsVal → String
  | .str s => s
  | .numv n => jsNumToString n
  | .boolv b => if b then "true" else "false"
  | .nullv => ""
  | .undefinedV => ""

/-- `value.replace(/"/g, '""')`: every quote character doubled. -/
def doubleQuotesCSV (s : String) : String :=
  String.mk (s.toList.foldr (fun c acc => if c = '"' then '"' :: '"' :: acc else c :: acc) [])

/-- One CSV cell of `downloadCSV`: `const value = row[header] || '';`
followed by quoting of strings containing a comma or a quote; any other
value is emitted as the string `join` makes of it. -/
def csvField (row : List (String × JsVal)) (header : String) : String :=
  let value := if jsFalsy (jsGet row header) then JsVal.str "" else jsGet row header
  match value with
  | .str s =>
      if s.toList.contains ',' ∨ s.toList.contains '"' then
        "\"" ++ doubleQuotesCSV s ++ "\""
      else s
  | v => jsValToString v

/-- One data row of the CSV content built by `downloadCSV`. -/
def csvRow (headers : List String) (row : List (String × JsVal)) : String :=
  String.intercalate "," (headers.map (csvField row))

/-! ## Sample records for concrete instances -/

/-- A participant with the given id, email and status; the remaining
fields are fixed innocuous values. -/
def sampleParticipant (i em st : String) : Participant :=
  { id := i, name := "N", email := em, phone := "", programme := "skills",
    startDate := "2025-01-01", progress := 0, status := st, notes := "",
    attendance := 0, revenue := 0, jobs := 0, createdAt := "t" }

/-- A budget item with the given category and amount. -/
def sampleBudgetItem (cat : String) (amt : JsNum) : BudgetItem :=
  { category := cat, amount := amt, priority := "High", description := "",
    dateAdded := "2025-01-01", createdAt := "t" }

/-- An expense with the given id, category and amount. -/
def sampleExpense (i cat : String) (amt : JsNum) : Expense :=
  { id := i, category := cat, amount := amt, date := "2025-01-02",
    description := "materials", createdAt := "t" }

/-- 200 participants of whom 29 are `Completed`: the success-rate
pipeline evaluates to the double 14.499999999999998 here, one rounding
step below the exact 14.5. -/
def ps29of200 : List Participant :=
  List.replicate 29 (sampleParticipant "P001" "c@d.e" "Completed") ++
    List.replicate 171 (sampleParticipant "P002" "a@b.c" "Active")

/-! ## Helper lemmas: id generation -/

lemma idFoldStep_eq_max (tag : List Char) (m : ℤ) (id : String) (hm : 0 ≤ m) :
    idFoldStep tag m id = max m (numericSuffix tag id) := by
  unfold idFoldStep numericSuffix
  cases h : parseIntJS (String.mk (replaceFirst tag id.toList)) with
  | none => simp [max_eq_left hm]
  | some n =>
      simp only [Option.getD_some]
      rcases lt_or_ge m n with hlt | hge
      · rw [if_pos hlt, max_eq_right (le_of_lt hlt)]
      · rw [if_neg (not_lt_of_ge hge), max_eq_left hge]

lemma specMaxSuffix_nonneg (tag : List Char) (ids : List String) :
    0 ≤ specMaxSuffix tag ids := by
  induction ids with
  | nil => simp [specMaxSuffix]
  | cons id rest ih =>
      simp only [specMaxSuffix, List.foldr_cons] at *
      exact le_max_of_le_right ih

lemma foldl_idFoldStep_eq (tag : List Char) (ids : List String) :
    ∀ m : ℤ, 0 ≤ m → ids.foldl (idFoldStep tag) m = max m (specMaxSuffix tag ids) := by
  induction ids with
  | nil => intro m hm; simp [specMaxSuffix, max_eq_left hm]
  | cons id rest ih =>
      intro m hm
      rw [List.foldl_cons, idFoldStep_eq_max tag m id hm,
        ih _ (le_trans hm (le_max_left _ _))]
      simp only [specMaxSuffix, List.foldr_cons]
      exact max_assoc m (numericSuffix tag id) (specMaxSuffix tag rest)

lemma generateParticipantId_eq (ps : List Participant) :
    generateParticipantId ps =
      "P" ++ padStart3 (toString (specMaxSuffix ['P'] (ps.map Participant.id) + 1)) := by
  unfold generateParticipantId
  have h1 : ps.foldl (fun m p => idFoldStep ['P'] m p.id) 0
      = (ps.map Participant.id).foldl (idFoldStep ['P']) 0 := by
    rw [List.foldl_map]
  rw [h1, foldl_idFoldStep_eq _ _ 0 le_rfl,
    max_eq_right (specMaxSuffix_nonneg _ _)]

lemma generateExpenseId_eq (es : List Expense) :
    generateExpenseId es =
      "EXP" ++ padStart3 (toString (specMaxSuffix ['E', 'X', 'P'] (es.map Expense.id) + 1)) := by
  unfold generateExpenseId
  have h1 : es.foldl (fun m e => idFoldStep ['E', 'X', 'P'] m e.id) 0
      = (es.map Expense.id).foldl (idFoldStep ['E', 'X', 'P']) 0 := by
    rw [List.foldl_map]
  rw [h1, foldl_idFoldStep_eq _ _ 0 le_rfl,
    max_eq_right (specMaxSuffix_nonneg _ _)]

/-! ## Claim theorems -/

/-- C4: for every collection, id generation returns the entity tag
followed by the maximum numeric suffix among existing ids plus one,
zero-padded to 3 digits; the empty collection yields suffix 1
(`"P001"`), and `[{id:"P001"}, {id:"P005"}]` yields `"P006"`. -/
theorem c4_nextId_max_suffix_plus_one :
    (∀ ps : List Participant, generateParticipantId ps =
        "P" ++ padStart3 (toString (specMaxSuffix ['P'] (ps.map Participant.id) + 1))) ∧
    (∀ es : List Expense, generateExpenseId es =
        "EXP" ++ padStart3 (toString (specMaxSuffix ['E', 'X', 'P'] (es.map Expense.id) + 1))) ∧
    generateParticipantId [] = "P001" ∧
    generateParticipantId
      [sampleParticipant "P001" "a@b.c" "Active",
       sampleParticipant "P005" "c@d.e" "Active"] = "P006" :=
  ⟨generateParticipantId_eq, generateExpenseId_eq, by decide, by decide⟩

/-- C5: an id whose suffix after the entity tag is non-numeric does not
break id generation: it counts as suffix 0, i.e. it contributes nothing
beyond the base 0, and generation over the collection with and without
the malformed id coincide. -/
theorem c5_malformed_id_counts_as_zero (pre post : List Participant) (bad : Participant)
    (h : parseIntJS (String.mk (replaceFirst ['P'] bad.id.toList)) = none) :
    numericSuffix ['P'] bad.id = 0 ∧
    generateParticipantId (pre ++ bad :: post) = generateParticipantId (pre ++ post) := by
  constructor
  · unfold numericSuffix; rw [h]; rfl
  · unfold generateParticipantId
    have hstep : ∀ m : ℤ, idFoldStep ['P'] m bad.id = m := by
      intro m; unfold idFoldStep; rw [h]
    rw [List.foldl_append, List.foldl_append, List.foldl_cons, hstep]

/-- Witness for C5 at a concrete malformed id `"PABC"`. -/
theorem c5_malformed_id_counts_as_zero_witness :
    parseIntJS (String.mk (replaceFirst ['P']
      (sampleParticipant "PABC" "x@y.z" "Active").id.toList)) = none ∧
    generateParticipantId
      [sampleParticipant "P002" "a@b.c" "Active",
       sampleParticipant "PABC" "x@y.z" "Active"] =
      generateParticipantId [sampleParticipant "P002" "a@b.c" "Active"] :=
  ⟨by decide,
    (c5_malformed_id_counts_as_zero [sampleParticipant "P002" "a@b.c" "Active"] []
      (sampleParticipant "PABC" "x@y.z" "Active") (by decide)).2⟩

/-! ## Helper lemmas: binary64 rounding error -/

lemma bitLenAux_zero (fuel : ℕ) : bitLenAux fuel 0 = 0 := by
  cases fuel <;> simp [bitLenAux]

lemma bitLenAux_spec :
    ∀ fuel n : ℕ, n ≤ fuel → n ≠ 0 →
      1 ≤ bitLenAux fuel n ∧ 2 ^ (bitLenAux fuel n - 1) ≤ n ∧ n < 2 ^ bitLenAux fuel n := by
  intro fuel
  induction fuel with
  | zero => intro n hn h0; omega
  | succ fuel ih =>
      intro n hn h0
      simp only [bitLenAux, if_neg h0]
      by_cases h1 : n / 2 = 0
      · have hn1 : n = 1 := by omega
        subst hn1
        simp [h1, bitLenAux_zero]
      · have hle : n / 2 ≤ fuel := by
          have := Nat.div_lt_self (Nat.pos_of_ne_zero h0) one_lt_two
          omega
        obtain ⟨ih1, ih2, ih3⟩ := ih (n / 2) hle h1
        refine ⟨by omega, ?_, ?_⟩
        · have hstep : 2 ^ (bitLenAux fuel (n / 2) - 1) * 2 ≤ n / 2 * 2 :=
            Nat.mul_le_mul_right 2 ih2
          have hdm : n / 2 * 2 ≤ n := Nat.div_mul_le_self n 2
          have hpow : 2 ^ (bitLenAux fuel (n / 2) - 1) * 2 = 2 ^ bitLenAux fuel (n / 2) := by
            rw [← pow_succ]
            congr 1
            omega
          calc 2 ^ (bitLenAux fuel (n / 2) + 1 - 1) = 2 ^ bitLenAux fuel (n / 2) := rfl
            _ = 2 ^ (bitLenAux fuel (n / 2) - 1) * 2 := hpow.symm
            _ ≤ n / 2 * 2 := hstep
            _ ≤ n := hdm
        · have := (Nat.div_lt_iff_lt_mul (by norm_num : 0 < 2)).mp ih3
          calc n < 2 ^ bitLenAux fuel (n / 2) * 2 := this
            _ = 2 ^ (bitLenAux fuel (n / 2) + 1) := (pow_succ 2 _).symm

lemma bitLen_spec (n : ℕ) (h : n ≠ 0) :
    1 ≤ bitLen n ∧ 2 ^ (bitLen n - 1) ≤ n ∧ n < 2 ^ bitLen n :=
  bitLenAux_spec n n le_rfl h

lemma ratExp_bracket (q : ℚ) (hq : 0 < q) :
    (2 : ℚ) ^ ratExp q ≤ q ∧ q < 2 ^ (ratExp q + 1) := by
  have hnum_pos : 0 < q.num := Rat.num_pos.mpr hq
  have hnum0 : q.num.natAbs ≠ 0 := by omega
  have hden0 : q.den ≠ 0 := q.den_nz
  obtain ⟨ha1, ha2, ha3⟩ := bitLen_spec q.num.natAbs hnum0
  obtain ⟨hb1, hb2, hb3⟩ := bitLen_spec q.den hden0
  set La := bitLen q.num.natAbs with hLa
  set Lb := bitLen q.den with hLb
  have hA1 : (2 : ℚ) ^ (La - 1 : ℕ) ≤ (q.num.natAbs : ℚ) := by exact_mod_cast ha2
  have hA2 : ((q.num.natAbs : ℚ)) < 2 ^ La := by exact_mod_cast ha3
  have hB1 : (2 : ℚ) ^ (Lb - 1 : ℕ) ≤ (q.den : ℚ) := by exact_mod_cast hb2
  have hB2 : ((q.den : ℚ)) < 2 ^ Lb := by exact_mod_cast hb3
  have hBpos : (0 : ℚ) < (q.den : ℚ) := by exact_mod_cast q.pos
  have hA : ((q.num.natAbs : ℚ)) = ((q.num : ℤ) : ℚ) := by
    rw [Int.cast_natAbs, abs_of_pos (by exact_mod_cast hnum_pos)]
  have hq_eq : q = (q.num.natAbs : ℚ) / (q.den : ℚ) := by
    rw [hA, Rat.num_div_den]
  have e1 : (2 : ℚ) ^ ((La : ℤ) - (Lb : ℤ) + 1) = (2 : ℚ) ^ (La : ℕ) / (2 : ℚ) ^ (Lb - 1 : ℕ) := by
    rw [show (La : ℤ) - (Lb : ℤ) + 1 = ((La : ℕ) : ℤ) - (((Lb - 1 : ℕ) : ℤ)) by omega,
      zpow_sub₀ (two_ne_zero), zpow_natCast, zpow_natCast]
  have e2 : (2 : ℚ) ^ ((La : ℤ) - (Lb : ℤ) - 1) = (2 : ℚ) ^ (La - 1 : ℕ) / (2 : ℚ) ^ (Lb : ℕ) := by
    rw [show (La : ℤ) - (Lb : ℤ) - 1 = ((La - 1 : ℕ) : ℤ) - (((Lb : ℕ) : ℤ)) by omega,
      zpow_sub₀ (two_ne_zero), zpow_natCast, zpow_natCast]
  have hupper : q < (2 : ℚ) ^ ((La : ℤ) - (Lb : ℤ) + 1) := by
    rw [e1, hq_eq]
    gcongr
  have hlower : (2 : ℚ) ^ ((La : ℤ) - (Lb : ℤ) - 1) ≤ q := by
    rw [e2, hq_eq]
    gcongr
  have hbase : ratExpBase q = (La : ℤ) - (Lb : ℤ) := rfl
  unfold ratExp
  by_cases hif : (2 : ℚ) ^ ratExpBase q ≤ q
  · rw [if_pos hif, hbase] at *
    exact ⟨by rw [← hbase]; exact hif, hupper⟩
  · rw [if_neg hif]
    rw [hbase] at hif ⊢
    constructor
    · exact hlower
    · rw [show (La : ℤ) - (Lb : ℤ) - 1 + 1 = (La : ℤ) - (Lb : ℤ) by ring]
      exact lt_of_not_le hif

lemma roundHalfEven_close (y : ℚ) : |((roundHalfEven y : ℤ) : ℚ) - y| ≤ 1 / 2 := by
  have h1 : (0 : ℚ) ≤ Int.fract y := Int.fract_nonneg y
  have h2 : Int.fract y < 1 := Int.fract_lt_one y
  have h3 : Int.fract y = y - ⌊y⌋ := rfl
  unfold roundHalfEven
  split
  · rename_i hc
    rw [abs_le]
    constructor <;> [linarith [h3 ▸ hc] ; linarith]
  · split
    · rename_i hc1 hc2
      rw [abs_le]
      push_cast
      constructor <;> [linarith ; linarith [h3 ▸ hc2]]
    · rename_i hc1 hc2
      have heq : Int.fract y = 1 / 2 := le_antisymm (not_lt.mp hc2) (not_lt.mp hc1)
      rw [h3] at heq
      split <;> (rw [abs_le]; push_cast; constructor <;> linarith)

lemma fl64_err (q : ℚ) (hq : 0 < q) :
    |fl64 q - q| ≤ q * (2 : ℚ) ^ (-53 : ℤ) := by
  obtain ⟨he1, he2⟩ := ratExp_bracket q hq
  unfold fl64
  rw [if_neg (ne_of_gt hq), if_neg (not_lt.mpr hq.le), abs_of_pos hq, one_mul]
  set e := ratExp q with he
  set s := q * 2 ^ ((52 : ℤ) - e) with hs
  have hkey : s * 2 ^ (e - (52 : ℤ)) = q := by
    rw [hs, mul_assoc, ← zpow_add₀ (two_ne_zero (α := ℚ))]
    norm_num
  have hsplit : ((roundHalfEven s : ℤ) : ℚ) * 2 ^ (e - (52 : ℤ)) - q
      = (((roundHalfEven s : ℤ) : ℚ) - s) * 2 ^ (e - (52 : ℤ)) := by
    rw [sub_mul, hkey]
  have hzpos : (0 : ℚ) < 2 ^ (e - (52 : ℤ)) := zpow_pos (by norm_num) _
  calc |((roundHalfEven s : ℤ) : ℚ) * 2 ^ (e - (52 : ℤ)) - q|
      = |((roundHalfEven s : ℤ) : ℚ) - s| * 2 ^ (e - (52 : ℤ)) := by
        rw [hsplit, abs_mul, abs_of_pos hzpos]
    _ ≤ 1 / 2 * 2 ^ (e - (52 : ℤ)) :=
        mul_le_mul_of_nonneg_right (roundHalfEven_close s) hzpos.le
    _ = 2 ^ (e - (53 : ℤ)) := by
        rw [show (1 / 2 : ℚ) = 2 ^ (-1 : ℤ) by norm_num,
          ← zpow_add₀ (two_ne_zero (α := ℚ))]
        congr 1
        omega
    _ = 2 ^ e * 2 ^ (-53 : ℤ) := by
        rw [← zpow_add₀ (two_ne_zero (α := ℚ))]
        congr 1
    _ ≤ q * 2 ^ (-53 : ℤ) :=
        mul_le_mul_of_nonneg_right he1 (zpow_pos (by norm_num : (0:ℚ) < 2) _).le

lemma fl64_zero : fl64 0 = 0 := by
  simp [fl64]

lemma successRatePipeline_close (c t : ℕ) (hct : c ≤ t) (ht : 0 < t) :
    |fl64 (fl64 ((c : ℚ) / (t : ℚ)) * 100) - 100 * (c : ℚ) / (t : ℚ)| < 1 / 2 := by
  have hep : ((2 : ℚ) ^ (-53 : ℤ)) = 1 / 9007199254740992 := by norm_num
  rcases Nat.eq_zero_or_pos c with hc | hc
  · subst hc
    norm_num [fl64_zero]
  · have htq : (0 : ℚ) < (t : ℚ) := by exact_mod_cast ht
    have hq : (0 : ℚ) < (c : ℚ) / (t : ℚ) := by positivity
    have hqle : (c : ℚ) / (t : ℚ) ≤ 1 := by
      rw [div_le_one htq]
      exact_mod_cast hct
    set q : ℚ := (c : ℚ) / (t : ℚ) with hqdef
    have h1 := fl64_err q hq
    rw [hep] at h1
    have h1' : |fl64 q - q| ≤ 1 / 9007199254740992 := by
      refine h1.trans ?_
      nlinarith [hq.le, hqle]
    have hv1a := (abs_le.mp h1').1
    have hv1b := (abs_le.mp h1').2
    have hv1pos : 0 < fl64 q := by
      have hlow := (abs_le.mp h1).1
      linarith
    have hwpos : 0 < fl64 q * 100 := by linarith
    have h2 := fl64_err (fl64 q * 100) hwpos
    rw [hep] at h2
    have hwub : fl64 q * 100 ≤ 200 := by linarith
    have h2' : |fl64 (fl64 q * 100) - fl64 q * 100| ≤ 200 / 9007199254740992 := by
      refine h2.trans ?_
      linarith
    have hmid : |fl64 q * 100 - 100 * q| ≤ 100 / 9007199254740992 := by
      rw [show fl64 q * 100 - 100 * q = (fl64 q - q) * 100 by ring, abs_mul]
      rw [show |(100 : ℚ)| = 100 by norm_num]
      linarith [h1']
    have htri := abs_sub_le (fl64 (fl64 q * 100)) (fl64 q * 100) (100 * q)
    have hfinal : |fl64 (fl64 q * 100) - 100 * q| < 1 / 2 := by
      calc |fl64 (fl64 q * 100) - 100 * q|
          ≤ |fl64 (fl64 q * 100) - fl64 q * 100| + |fl64 q * 100 - 100 * q| := htri
        _ ≤ 200 / 9007199254740992 + 100 / 9007199254740992 := add_le_add h2' hmid
        _ < 1 / 2 := by norm_num
    rw [show 100 * (c : ℚ) / (t : ℚ) = 100 * q by rw [hqdef]; ring]
    exact hfinal

lemma jsRoundQ_close (x y : ℚ) (h : |x - y| < 1 / 2) :
    |jsRoundQ x - jsRoundQ y| ≤ 1 := by
  obtain ⟨hxy1, hxy2⟩ := abs_lt.mp h
  unfold jsRoundQ
  have k1 : ⌊x + 1 / 2⌋ ≤ ⌊y + 1 / 2⌋ + 1 := by
    have hle : x + 1 / 2 ≤ (y + 1 / 2) + 1 := by linarith
    calc ⌊x + 1 / 2⌋ ≤ ⌊(y + 1 / 2) + 1⌋ := Int.floor_le_floor hle
      _ = ⌊y + 1 / 2⌋ + 1 := Int.floor_add_one _
  have k2 : ⌊y + 1 / 2⌋ ≤ ⌊x + 1 / 2⌋ + 1 := by
    have hle : y + 1 / 2 ≤ (x + 1 / 2) + 1 := by linarith
    calc ⌊y + 1 / 2⌋ ≤ ⌊(x + 1 / 2) + 1⌋ := Int.floor_le_floor hle
      _ = ⌊x + 1 / 2⌋ + 1 := Int.floor_add_one _
  rw [abs_le]
  omega

lemma successRate_diff_le_one (ps : List Participant) :
    |calculateSuccessRate ps - successRateSpec ps| ≤ 1 := by
  unfold calculateSuccessRate successRateSpec
  rcases Nat.eq_zero_or_pos ps.length with h | h
  · rw [if_pos h, if_pos h]
    simp
  · rw [if_neg (Nat.pos_iff_ne_zero.mp h), if_neg (Nat.pos_iff_ne_zero.mp h)]
    exact jsRoundQ_close _ _
      (successRatePipeline_close _ _ (List.length_filter_le _ _) h)

set_option maxRecDepth 400000 in
/-- C6 counterexample: at 29 Completed of 200 participants the program
computes `Math.round` of the double 14.499999999999998 — that is 14 —
while the claimed exact formula gives `round(100 * 29 / 200) =
round(14.5) = 15`; so the success rate does not equal
`round(100 * count(Completed) / total)` on every collection. -/
theorem c6_exact_formula_counterexample :
    calculateSuccessRate ps29of200 = 14 ∧ successRateSpec ps29of200 = 15 := by
  have hc : (ps29of200.filter (fun p => p.status = "Completed")).length = 29 := by decide
  have ht : ps29of200.length = 200 := by decide
  have h0 : ¬ ps29of200.length = 0 := by rw [ht]; norm_num
  constructor
  · unfold calculateSuccessRate
    rw [if_neg h0, hc, ht]
    with_unfolding_all decide
  · unfold successRateSpec
    rw [if_neg h0, hc, ht]
    norm_num [jsRoundQ]

set_option maxRecDepth 400000 in
/-- C6 (amended): the success rate the program computes — `Math.round`
of the binary64 evaluation of `(completed / total) * 100` — is 0 on the
empty collection, equals the spec's exact `round(100 * completed /
total)` on the spec's example (50 for one Completed and one Active
participant), and never differs from the exact formula by more than one
point; exact agreement on every collection fails (see the
counterexample). -/
theorem c6_success_rate_within_one_of_spec :
    (∀ ps : List Participant, |calculateSuccessRate ps - successRateSpec ps| ≤ 1) ∧
    calculateSuccessRate [] = 0 ∧
    calculateSuccessRate
      [sampleParticipant "P001" "a@b.c" "Completed",
       sampleParticipant "P002" "c@d.e" "Active"] = 50 := by
  refine ⟨successRate_diff_le_one, by simp [calculateSuccessRate], ?_⟩
  with_unfolding_all decide

/-- C8: removing a budget item at an index outside `[0, length)` (such as
the length itself) fails and leaves the collection unchanged; an in-range
index removes exactly the element at that position, keeping the rest in
order. -/
theorem c8_remove_budget_item_range (items : List BudgetItem) (i : ℤ) :
    ((i < 0 ∨ (items.length : ℤ) ≤ i) →
      (removeBudgetItem i items).budgetItems = items ∧
      (removeBudgetItem i items).error.isSome = true) ∧
    (0 ≤ i → i < (items.length : ℤ) →
      (removeBudgetItem i items).budgetItems =
        items.take i.toNat ++ items.drop (i.toNat + 1) ∧
      (removeBudgetItem i items).error = none) := by
  constructor
  · intro h
    unfold removeBudgetItem
    rw [if_pos h]
    exact ⟨rfl, rfl⟩
  · intro h0 hlen
    unfold removeBudgetItem
    rw [if_neg (by omega)]
    exact ⟨rfl, rfl⟩

/-- Witness for C8: on a one-element collection, index 1 (the length) is
rejected without change and index 0 removes the only element. -/
theorem c8_remove_budget_item_range_witness :
    ((1 : ℤ) < 0 ∨ (([sampleBudgetItem "Training" (JsNum.num 500)].length : ℤ) ≤ 1)) ∧
    (removeBudgetItem 1 [sampleBudgetItem "Training" (JsNum.num 500)]).budgetItems =
      [sampleBudgetItem "Training" (JsNum.num 500)] ∧
    (removeBudgetItem 1 [sampleBudgetItem "Training" (JsNum.num 500)]).error.isSome = true ∧
    (removeBudgetItem 0 [sampleBudgetItem "Training" (JsNum.num 500)]).budgetItems = [] ∧
    (removeBudgetItem 0 [sampleBudgetItem "Training" (JsNum.num 500)]).error = none := by
  refine ⟨by norm_num, ?_, ?_, ?_, ?_⟩
  · exact ((c8_remove_budget_item_range [sampleBudgetItem "Training" (JsNum.num 500)] 1).1
      (by norm_num)).1
  · exact ((c8_remove_budget_item_range [sampleBudgetItem "Training" (JsNum.num 500)] 1).1
      (by norm_num)).2
  · simpa using ((c8_remove_budget_item_range [sampleBudgetItem "Training" (JsNum.num 500)] 0).2
      (by norm_num) (by norm_num)).1
  · exact ((c8_remove_budget_item_range [sampleBudgetItem "Training" (JsNum.num 500)] 0).2
      (by norm_num) (by norm_num)).2

/-- C9: a record field whose value is falsy (0, `false`, the empty
string, `null`, `undefined`) is replaced by the empty string before
serialization, so its CSV cell is empty. -/
theorem c9_falsy_field_empty_cell (row : List (String × JsVal)) (header : String)
    (hf : jsFalsy (jsGet row header) = true) :
    csvField row header = "" := by
  unfold csvField
  rw [if_pos hf]
  decide

/-- Witness for C9: the numeric value 0 is emitted as an empty cell. -/
theorem c9_falsy_field_empty_cell_witness :
    jsFalsy (jsGet [("progress", JsVal.numv (JsNum.num 0))] "progress") = true ∧
    csvField [("progress", JsVal.numv (JsNum.num 0))] "progress" = "" :=
  ⟨by decide, c9_falsy_field_empty_cell _ _ (by decide)⟩

/-- C10: toggling the theme persists through `saveData`, which writes the
cached participants, budget items and expenses back to their storage
slots (overwriting whatever was persisted there) together with the new
settings record. -/
theorem c10_toggle_theme_writes_cached_collections
    (domDark : Bool) (sd : SystemData) (st : Store) :
    (toggleTheme domDark sd st).2.2.participants = sd.participants ∧
    (toggleTheme domDark sd st).2.2.budgetItems = sd.budgetItems ∧
    (toggleTheme domDark sd st).2.2.expenses = sd.expenses ∧
    (toggleTheme domDark sd st).2.2.settings.theme =
      (if ! domDark then "dark" else "light") := by
  simp [toggleTheme, saveData]

/-- C1: contrary to the claim, `generateMonthlyReport` does not guard the
utilization division: a budget item of amount 0 with a matching expense
of 100 yields the utilization cell `"Infinity%"` — the marker `Infinity`
reaches the per-category table instead of a non-numeric `"N/A"`. -/
theorem c1_zero_budget_yields_infinity_cell :
    generateMonthlyReport [sampleBudgetItem "Training" (JsNum.num 0)]
        [sampleExpense "EXP001" "Training" (JsNum.num 100)] =
      [{ Category := "Training", Budget := JsNum.num 0, Spent := JsNum.num 100,
         Remaining := JsNum.num (-100), Utilization := "Infinity%" }] := by
  have hspent : jsAdd (JsNum.num 0) (JsNum.num 100) = JsNum.num 100 := by
    simp [jsAdd]
  have hrem : jsSub (JsNum.num 0) (JsNum.num 100) = JsNum.num (-100) := by
    simp [jsSub, jsAdd, jsNeg]
  have hdiv : jsDiv (JsNum.num 100) (JsNum.num 0) = JsNum.inf := by
    norm_num [jsDiv]
  simp [generateMonthlyReport, sampleBudgetItem, sampleExpense, hspent, hrem, hdiv,
    jsMul, jsRound, jsNumToString]

/-- C2: contrary to the claim, `addBudgetItem` performs no numeric
validation of the amount: the non-numeric amount string `"abc"` passes
the required-field check, the item is appended with `amount = NaN`, and
no error is reported. -/
theorem c2_non_numeric_amount_stored_as_nan :
    (addBudgetItem ⟨"Food", "abc", "High", ""⟩ [] "2025-01-01" "t").error = none ∧
    (addBudgetItem ⟨"Food", "abc", "High", ""⟩ [] "2025-01-01" "t").budgetItems =
      [{ category := "Food", amount := JsNum.nan, priority := "High", description := "",
         dateAdded := "2025-01-01", createdAt := "t" }] := by
  constructor
  · decide
  · decide

/-! ## Helper lemmas: the resolved stage of `addParticipant` -/

lemma addParticipantResolved_dup (f : ParticipantForm) (programme : String)
    (ps : List Participant) (now : String)
    (hdup : ps.any (fun p => p.email = f.email) = true) :
    (addParticipantResolved f programme ps now).participants = ps ∧
    (addParticipantResolved f programme ps now).created = none ∧
    (addParticipantResolved f programme ps now).error.isSome = true := by
  unfold addParticipantResolved
  by_cases h1 : f.name = "" ∨ f.email = "" ∨ programme = "" ∨ f.startDate = ""
  · rw [if_pos h1]; exact ⟨rfl, rfl, rfl⟩
  · rw [if_neg h1]
    by_cases h2 : ¬ isValidEmail f.email = true
    · rw [if_pos h2]; exact ⟨rfl, rfl, rfl⟩
    · rw [if_neg h2, if_pos hdup]; exact ⟨rfl, rfl, rfl⟩

lemma addParticipantResolved_success (f : ParticipantForm) (programme : String)
    (ps : List Participant) (now : String)
    (hname : f.name ≠ "") (hemail : f.email ≠ "")
    (hprog : programme ≠ "") (hdate : f.startDate ≠ "")
    (hvalid : isValidEmail f.email = true)
    (hfresh : ps.any (fun p => p.email = f.email) = false) :
    addParticipantResolved f programme ps now =
      { participants := ps ++
          [{ id := generateParticipantId ps, name := f.name, email := f.email,
             phone := jsOrEmpty f.phone, programme := programme,
             startDate := f.startDate, progress := 0, status := "Active",
             notes := jsOrEmpty f.notes, attendance := 0, revenue := 0,
             jobs := 0, createdAt := now }],
        created := some
          { id := generateParticipantId ps, name := f.name, email := f.email,
            phone := jsOrEmpty f.phone, programme := programme,
            startDate := f.startDate, progress := 0, status := "Active",
            notes := jsOrEmpty f.notes, attendance := 0, revenue := 0,
            jobs := 0, createdAt := now },
        error := none } := by
  unfold addParticipantResolved
  rw [if_neg (by push_neg; exact ⟨hname, hemail, hprog, hdate⟩),
    if_neg (by rw [hvalid]; exact not_not_intro rfl),
    if_neg (by rw [hfresh]; exact Bool.false_ne_true)]

/-- C3: creating a participant whose email equals the email of some
participant already in the loaded collection always fails with a
validation notification; nothing is appended and the persisted
collection is unchanged. -/
theorem c3_duplicate_email_rejected (f : ParticipantForm) (ps : List Participant)
    (now : String) (hdup : ps.any (fun p => p.email = f.email) = true) :
    (addParticipant f ps now).participants = ps ∧
    (addParticipant f ps now).created = none ∧
    (addParticipant f ps now).error.isSome = true := by
  unfold addParticipant
  split
  · split
    · exact ⟨rfl, rfl, rfl⟩
    · exact addParticipantResolved_dup f _ ps now hdup
  · exact addParticipantResolved_dup f _ ps now hdup

/-- Witness for C3 at a concrete duplicate email. -/
theorem c3_duplicate_email_rejected_witness :
    ([sampleParticipant "P001" "a@b.c" "Active"].any
      (fun p => p.email = "a@b.c") = true) ∧
    (addParticipant ⟨"M", "a@b.c", "", "skills", "", "2025-02-01", ""⟩
        [sampleParticipant "P001" "a@b.c" "Active"] "t").participants =
      [sampleParticipant "P001" "a@b.c" "Active"] ∧
    (addParticipant ⟨"M", "a@b.c", "", "skills", "", "2025-02-01", ""⟩
        [sampleParticipant "P001" "a@b.c" "Active"] "t").created = none ∧
    (addParticipant ⟨"M", "a@b.c", "", "skills", "", "2025-02-01", ""⟩
        [sampleParticipant "P001" "a@b.c" "Active"] "t").error.isSome = true :=
  ⟨by decide,
    c3_duplicate_email_rejected ⟨"M", "a@b.c", "", "skills", "", "2025-02-01", ""⟩
      [sampleParticipant "P001" "a@b.c" "Active"] "t" (by decide)⟩

/-- C7: creating a participant with a fresh email and valid required
fields succeeds: exactly one record is appended to the persisted
collection, carrying that email, status `Active`, progress 0 and zero
attendance, revenue and jobs counters. -/
theorem c7_create_participant_appends_record (f : ParticipantForm)
    (ps : List Participant) (now : String)
    (hcustom : f.programme = "custom" → f.customProgramme.trim ≠ "")
    (hname : f.name ≠ "") (hemail : f.email ≠ "")
    (hprog : f.programme ≠ "") (hdate : f.startDate ≠ "")
    (hvalid : isValidEmail f.email = true)
    (hfresh : ps.any (fun p => p.email = f.email) = false) :
    (addParticipant f ps now).error = none ∧
    (addParticipant f ps now).participants.length = ps.length + 1 ∧
    (addParticipant f ps now).participants =
      ps ++ ((addParticipant f ps now).created).toList ∧
    ((addParticipant f ps now).created).map Participant.email = some f.email ∧
    ((addParticipant f ps now).created).map Participant.status = some "Active" ∧
    ((addParticipant f ps now).created).map Participant.progress = some 0 ∧
    ((addParticipant f ps now).created).map Participant.attendance = some 0 ∧
    ((addParticipant f ps now).created).map Participant.revenue = some 0 ∧
    ((addParticipant f ps now).created).map Participant.jobs = some 0 := by
  unfold addParticipant
  by_cases hc : f.programme = "custom"
  · rw [if_pos hc, if_neg (hcustom hc),
      addParticipantResolved_success f _ ps now hname hemail (hcustom hc) hdate hvalid hfresh]
    refine ⟨rfl, ?_, rfl, rfl, rfl, rfl, rfl, rfl, rfl⟩
    simp
  · rw [if_neg hc,
      addParticipantResolved_success f _ ps now hname hemail hprog hdate hvalid hfresh]
    refine ⟨rfl, ?_, rfl, rfl, rfl, rfl, rfl, rfl, rfl⟩
    simp

/-- Witness for C7 at a concrete fresh email over the empty collection. -/
theorem c7_create_participant_appends_record_witness :
    isValidEmail "new@site.org" = true ∧
    (addParticipant ⟨"M", "new@site.org", "", "skills", "", "2025-02-01", ""⟩ [] "t").error
      = none ∧
    (addParticipant ⟨"M", "new@site.org", "", "skills", "", "2025-02-01", ""⟩
        [] "t").participants.length = 0 + 1 ∧
    ((addParticipant ⟨"M", "new@site.org", "", "skills", "", "2025-02-01", ""⟩
        [] "t").created).map Participant.email = some "new@site.org" :=
  have h := c7_create_participant_appends_record
    ⟨"M", "new@site.org", "", "skills", "", "2025-02-01", ""⟩ [] "t"
    (fun hc => absurd hc (by decide)) (by decide) (by decide) (by decide) (by decide)
    (by decide) (by decide)
  ⟨by decide, h.1, h.2.1, h.2.2.2.1⟩
